import Mathlib

/-!
Verification of the BMI app's plan-acquisition and week-segmentation pipeline
(`src/app.py`, `src/ai_coach.py`).

Strings are embedded as `List Char`.  Whitespace is modelled as the ASCII
whitespace characters recognised both by Python's `str.strip()` and by the
regex class `\s` on ASCII input: space, tab, newline, carriage return,
vertical tab and form feed.
-/

/-- ASCII whitespace, the character class used by `str.strip()` and `\s`. -/
def isSpace (c : Char) : Bool :=
  c = ' ' || c = '\t' || c = '\n' || c = '\r' || c = '\x0b' || c = '\x0c'

/-- Length of the maximal run of whitespace at the head of the list:
the greedy `\s*` of the heading regex. -/
def countSpaces : List Char → Nat
  | [] => 0
  | c :: rest => if isSpace c then countSpaces rest + 1 else 0

/-- The character class `[1-4]` of the heading regex, with the week number
`int(match.group(2))` it yields. -/
def weekDigit (c : Char) : Option Nat :=
  if c = '1' then some 1
  else if c = '2' then some 2
  else if c = '3' then some 3
  else if c = '4' then some 4
  else none

def isW (c : Char) : Bool := c = 'w' || c = 'W'
def isE (c : Char) : Bool := c = 'e' || c = 'E'
def isK (c : Char) : Bool := c = 'k' || c = 'K'

/-- One attempt of the heading regex `(week\s*([1-4])\s*[:\-]?)`
(case-insensitive) anchored at the head of the list.  Returns the week
number and the length of the match.  The regex is backtracking-free here:
no whitespace character is a digit or a colon/dash, so each greedy `\s*`
is forced.  `some (n, len)` means `re` would report a match of length
`len` for week `n` at this position. -/
def matchWeekAt : List Char → Option (Nat × Nat)
  | c1 :: c2 :: c3 :: c4 :: rest =>
    if isW c1 && isE c2 && isE c3 && isK c4 then
      let sp1 := countSpaces rest
      match rest.drop sp1 with
      | [] => none
      | d :: rest2 =>
        match weekDigit d with
        | none => none
        | some n =>
          let sp2 := countSpaces rest2
          let extra :=
            match rest2.drop sp2 with
            | ':' :: _ => 1
            | '-' :: _ => 1
            | _ => 0
          some (n, 4 + sp1 + 1 + sp2 + extra)
    else none
  | _ => none

/-- Scan worker for `re.finditer` of the heading regex: `skip` counts
positions still covered by the previous match (the scan resumes at a
match's end, never inside it). -/
def findMatchesAux : List Char → Nat → Nat → List (Nat × Nat × Nat)
  | [], _, _ => []
  | _ :: rest, pos, k + 1 => findMatchesAux rest (pos + 1) k
  | c :: rest, pos, 0 =>
    match matchWeekAt (c :: rest) with
    | some (n, len) => (pos, pos + len, n) :: findMatchesAux rest (pos + 1) (len - 1)
    | none => findMatchesAux rest (pos + 1) 0

/-- `re.finditer` of the heading regex: the list of matches in scan order,
each as (start index, end index, week number). -/
def findMatches (s : List Char) (pos : Nat) : List (Nat × Nat × Nat) :=
  findMatchesAux s pos 0

/-- Python's `str.strip()`: drop ASCII whitespace from both ends. -/
def strip (l : List Char) : List Char :=
  ((l.dropWhile (fun c => isSpace c)).reverse.dropWhile (fun c => isSpace c)).reverse

/-- `plan_text.replace("\r\n", "\n")`: left-to-right, non-overlapping. -/
def replaceCRLF : List Char → List Char
  | [] => []
  | [c] => [c]
  | c1 :: c2 :: rest =>
    if c1 = '\r' && c2 = '\n' then '\n' :: replaceCRLF rest
    else c1 :: replaceCRLF (c2 :: rest)

/-- The WeekMap `{1: "...", 2: "...", 3: "...", 4: "..."}`. -/
structure Weeks where
  w1 : List Char
  w2 : List Char
  w3 : List Char
  w4 : List Char
deriving DecidableEq, Repr

def emptyWeeks : Weeks := ⟨[], [], [], []⟩

/-- `weeks[n] = v`; a key outside 1..4 leaves the map unchanged. -/
def setWeek (w : Weeks) (n : Nat) (v : List Char) : Weeks :=
  match n with
  | 1 => { w with w1 := v }
  | 2 => { w with w2 := v }
  | 3 => { w with w3 := v }
  | 4 => { w with w4 := v }
  | _ => w

/-- `weeks.get(n)` with default `""`. -/
def getWeek (w : Weeks) (n : Nat) : List Char :=
  match n with
  | 1 => w.w1
  | 2 => w.w2
  | 3 => w.w3
  | 4 => w.w4
  | _ => []

/-- `matches[i + 1].start() if i + 1 < len(matches) else len(text)`. -/
def nextStart (text : List Char) (rest : List (Nat × Nat × Nat)) : Nat :=
  match rest with
  | (s2, _, _) :: _ => s2
  | [] => text.length

/-- The loop body of `split_plan_into_weeks`: for each match, the section is
`text[match.end() : next start].strip()`; an empty section is skipped,
a non-empty one overwrites the week's slot. -/
def assignSections (text : List Char) : List (Nat × Nat × Nat) → Weeks → Weeks
  | [], w => w
  | (_, e, n) :: rest, w =>
    let sec := strip ((text.drop e).take (nextStart text rest - e))
    assignSections text rest (if sec = [] then w else setWeek w n sec)

/-- The per-match (week number, stripped section) pairs in scan order;
`assignSections` folds exactly these. -/
def sections (text : List Char) : List (Nat × Nat × Nat) → List (Nat × List Char)
  | [] => []
  | (_, e, n) :: rest =>
    (n, strip ((text.drop e).take (nextStart text rest - e))) :: sections text rest

/-- `split_plan_into_weeks` from `src/app.py` (lines 145-182): normalize line
endings, scan for headings, slice sections between consecutive matches,
fall back to putting the whole stripped text in week 1 when there is no
match or every section came out empty. -/
def split_plan_into_weeks (plan_text : List Char) : Weeks :=
  let text := replaceCRLF plan_text
  let ms := findMatches text 0
  if ms = [] then { emptyWeeks with w1 := strip text }
  else
    let w := assignSections text ms emptyWeeks
    if w.w1 = [] ∧ w.w2 = [] ∧ w.w3 = [] ∧ w.w4 = [] then { w with w1 := strip text }
    else w

/-- The heading line `WEEK <d>:` the Plan Generator's prompt demands. -/
def wkHead (d : Char) : List Char := ['W', 'E', 'E', 'K', ' ', d, ':']

/-- A single previously-segmented section re-wrapped under its own
`WEEK <d>:` heading on its own line. -/
def rewrapWeek (d : Char) (s : List Char) : List Char :=
  wkHead d ++ ('\n' :: s)

/-- Week-parameter handling of the `coach` view (`src/app.py` lines 531-537):
after `int()` parsing, `if week not in [1, 2, 3, 4]: week = 1`. -/
def coach_week_param (week : Int) : Int :=
  if week = 1 ∨ week = 2 ∨ week = 3 ∨ week = 4 then week else 1

/-- Week-selection step of the `coach` view (`src/app.py` lines 615-621):
`weeks.get(str(week)) or ""`, falling back to the full plan text when the
looked-up section is empty and a plan exists.  `weeks = none` models a
session without a parsed WeekMap; an absent or empty plan text is the
empty list (both are falsy in the source).  `week_lookup` is the
`weeks.get(...)` chain: the session dict keys are the strings "1".."4",
so any other week value looks up nothing. -/
def week_lookup (weeks : Option Weeks) (week : Int) : List Char :=
  match weeks with
  | none => []
  | some w =>
    match week with
    | (1 : Int) => w.w1
    | (2 : Int) => w.w2
    | (3 : Int) => w.w3
    | (4 : Int) => w.w4
    | _ => []

def select_week (weeks : Option Weeks) (plan_text : List Char) (week : Int) : List Char :=
  if week_lookup weeks week = [] ∧ plan_text ≠ [] then plan_text else week_lookup weeks week

/-- One entry of the session's `coach_chat` list. -/
structure Turn where
  role : String
  content : String
deriving DecidableEq, Repr

/-- Transcript update of a successful `ask` action (`src/app.py` lines
607-613): append the user turn and the assistant turn, then keep only the
last 20 entries when the list exceeds 20. -/
def coach_chat_update (chat : List Turn) (question answer : String) : List Turn :=
  let chat2 := chat ++ [⟨"user", question⟩, ⟨"assistant", answer⟩]
  if 20 < chat2.length then chat2.drop (chat2.length - 20) else chat2

/-- The last `n` elements of a list. -/
def lastN (n : Nat) (l : List α) : List α := l.drop (l.length - n)

/-- The two turns one `ask` contributes, in chronological order. -/
def chatTurns (q a : String) : List Turn :=
  [⟨"user", q⟩, ⟨"assistant", a⟩]

/-- Full chronological sequence of turns for a list of (question, answer)
pairs. -/
def allTurns : List (String × String) → List Turn
  | [] => []
  | (q, a) :: rest => chatTurns q a ++ allTurns rest

/-- Transcript stored after a sequence of successful `ask` actions, starting
from the cleared chat of a fresh plan. -/
def runAsks (qas : List (String × String)) : List Turn :=
  qas.foldl (fun chat qa => coach_chat_update chat qa.1 qa.2) []

/-- One row of the `bmi_history` table.  Timestamps are modelled as `Nat`
(ISO-8601 strings compare chronologically). -/
structure BmiRow where
  user_id : Nat
  weight : Rat
  height : Rat
  bmi : Rat
  category : String
  timestamp : Nat
deriving DecidableEq

/-- One row of the `coach_plans` table. -/
structure PlanRow where
  user_id : Nat
  goal : String
  plan_text : List Char
  created_at : Nat
deriving DecidableEq

/-- The durable store as the coach feature sees it. -/
structure Db where
  bmi_history : List BmiRow
  coach_plans : List PlanRow
deriving DecidableEq

/-- `ORDER BY timestamp DESC LIMIT 1` over a result set: the first row with
maximal timestamp, `none` for an empty set. -/
def latestRow : List BmiRow → Option BmiRow
  | [] => none
  | r :: rest =>
    match latestRow rest with
    | none => some r
    | some r2 => some (if r.timestamp < r2.timestamp then r2 else r)

/-- `get_latest_bmi` from `src/app.py` (lines 185-194): the `bmi` column of
the user's most recent `bmi_history` row, or `None`. -/
def get_latest_bmi (db : Db) (user_id : Nat) : Option Rat :=
  (latestRow (db.bmi_history.filter (fun r => r.user_id = user_id))).map (·.bmi)

/-- The session fields the coach route owns. -/
structure CoachSession where
  coach_plan_text : Option (List Char)
  coach_weeks : Option Weeks
  coach_goal : String
  coach_chat : List Turn
deriving DecidableEq

/-- Outcome of one `coach` POST with `action=generate` (`src/app.py` lines
566-592): the goal is saved to the session first; without a recorded BMI
sample the handler only sets the error message, otherwise it stores the
AI text (`ai_plan`, the string the Plan Generator returned), inserts a
`coach_plans` row, re-segments, and clears the chat. -/
def coach_generate (db : Db) (sess : CoachSession) (user_id : Nat) (goal : String)
    (ai_plan : List Char) (now : Nat) : Db × CoachSession × Option String :=
  let sess1 := { sess with coach_goal := goal }
  match get_latest_bmi db user_id with
  | none => (db, sess1, some "Please calculate your BMI at least once before using AI Coach.")
  | some _ =>
    let db2 := { db with coach_plans := db.coach_plans ++ [⟨user_id, goal, ai_plan, now⟩] }
    let parsed := split_plan_into_weeks ai_plan
    (db2,
      { sess1 with
        coach_plan_text := some ai_plan
        coach_weeks := some parsed
        coach_chat := [] },
      none)

/-- Shape of the first element of `choices` in a 200 response, as
`_call_openrouter` inspects it: a `message.content` field, else a `text`
field, else neither (`dump` is `json.dumps(data, indent=2)` of the whole
payload). -/
inductive RespShape where
  | contentChoice (content : String)
  | textChoice (text : String)
  | badShape (dump : String)
deriving DecidableEq

/-- Outcome of the single outbound HTTP call in `_call_openrouter`
(`src/ai_coach.py` lines 52-78), covering every branch of its
try/except: timeout, a `requests` exception, any other raised exception
(for example a JSON decode error on a 200 body), a non-2xx status with
its diagnostic details (the dumped JSON error body, or the raw text when
the body is not JSON), or a 200 response of some shape. -/
inductive CallOutcome where
  | httpTimeout
  | netFail (detail : String)
  | otherFail (detail : String)
  | httpErr (status : Nat) (details : String)
  | httpOk (shape : RespShape)
deriving DecidableEq

/-- `str(...).strip()` on a Lean `String`. -/
def pyStrip (s : String) : String := String.mk (strip s.toList)

/-- `_call_openrouter` from `src/ai_coach.py` (lines 23-78) as a function of
the configured credential and the outcome of the outbound call.  Every
branch of the source returns a string; no branch re-raises. -/
def call_openrouter (api_key : Option String) (out : CallOutcome) : String :=
  match api_key with
  | none => "AI Coach is unavailable: OPENROUTER_API_KEY is not set in Render Environment Variables."
  | some _ =>
    match out with
    | .httpTimeout => "AI Coach timed out. Please try again."
    | .netFail detail => "AI Coach network error: " ++ detail
    | .otherFail detail => "AI Coach error: " ++ detail
    | .httpErr status details =>
      "AI Coach is unavailable (HTTP " ++ toString status ++ ").\n\nDetails:\n" ++ details
    | .httpOk (.contentChoice content) => pyStrip content
    | .httpOk (.textChoice text) => pyStrip text
    | .httpOk (.badShape dump) =>
      "AI Coach error: Unexpected response format.\n\nRaw:\n" ++ dump

example :
    split_plan_into_weeks (String.toList "WEEK 1:\n- walk\nWEEK 2:\n- run") =
      ⟨String.toList "- walk", String.toList "- run", [], []⟩ := by decide

example :
    split_plan_into_weeks (String.toList "no headings here") =
      ⟨String.toList "no headings here", [], [], []⟩ := by decide

example :
    split_plan_into_weeks (String.toList "WEEK 1:") =
      ⟨String.toList "WEEK 1:", [], [], []⟩ := by decide

example :
    split_plan_into_weeks (String.toList "week 1") =
      ⟨String.toList "week 1", [], [], []⟩ := by decide

/-! ## General lemmas about the embedded code -/

theorem split_plan_eq_cases (t : List Char) :
    split_plan_into_weeks t =
      if findMatches (replaceCRLF t) 0 = [] then
        { emptyWeeks with w1 := strip (replaceCRLF t) }
      else
        let w := assignSections (replaceCRLF t) (findMatches (replaceCRLF t) 0) emptyWeeks
        if w.w1 = [] ∧ w.w2 = [] ∧ w.w3 = [] ∧ w.w4 = [] then
          { w with w1 := strip (replaceCRLF t) }
        else w := rfl

theorem assignSections_of_all_empty (text : List Char) (ms : List (Nat × Nat × Nat))
    (w : Weeks) (h : ∀ p ∈ sections text ms, p.2 = []) :
    assignSections text ms w = w := by
  induction ms generalizing w with
  | nil => rfl
  | cons m rest ih =>
    obtain ⟨a, e, n⟩ := m
    have hsec : strip ((text.drop e).take (nextStart text rest - e)) = [] :=
      h (n, strip ((text.drop e).take (nextStart text rest - e))) (by simp [sections])
    simp only [assignSections, hsec, if_pos]
    exact ih w (fun p hp => h p (by simp [sections, hp]))

theorem matchWeekAt_not_w (c : Char) (rest : List Char) (h : isW c = false) :
    matchWeekAt (c :: rest) = none := by
  rcases rest with _ | ⟨c2, _ | ⟨c3, _ | ⟨c4, r⟩⟩⟩ <;> simp [matchWeekAt, h]

theorem matchWeekAt_some_len (s : List Char) (n len : Nat)
    (h : matchWeekAt s = some (n, len)) : 5 ≤ len := by
  rcases s with _ | ⟨c1, _ | ⟨c2, _ | ⟨c3, _ | ⟨c4, rest⟩⟩⟩⟩ <;>
    simp only [matchWeekAt] at h <;> try exact Option.noConfusion h
  split at h <;> try exact Option.noConfusion h
  split at h <;> try exact Option.noConfusion h
  split at h <;> try exact Option.noConfusion h
  simp only [Option.some.injEq, Prod.mk.injEq] at h
  omega

theorem weekDigit_cases (d : Char) (n : Nat) (h : weekDigit d = some n) :
    (d = '1' ∧ n = 1) ∨ (d = '2' ∧ n = 2) ∨ (d = '3' ∧ n = 3) ∨ (d = '4' ∧ n = 4) := by
  unfold weekDigit at h
  split_ifs at h with h1 h2 h3 h4
  · exact Or.inl ⟨h1, by injection h with h5; omega⟩
  · exact Or.inr (Or.inl ⟨h2, by injection h with h5; omega⟩)
  · exact Or.inr (Or.inr (Or.inl ⟨h3, by injection h with h5; omega⟩))
  · exact Or.inr (Or.inr (Or.inr ⟨h4, by injection h with h5; omega⟩))

theorem matchWeekAt_head (d : Char) (n : Nat) (h : weekDigit d = some n) (rest : List Char) :
    matchWeekAt (wkHead d ++ rest) = some (n, 7) := by
  rcases weekDigit_cases d n h with ⟨rfl, rfl⟩ | ⟨rfl, rfl⟩ | ⟨rfl, rfl⟩ | ⟨rfl, rfl⟩ <;> rfl

theorem findMatchesAux_skip (k : Nat) :
    ∀ (s : List Char) (pos : Nat),
      findMatchesAux s pos k = findMatchesAux (s.drop k) (pos + k) 0 := by
  induction k with
  | zero => intro s pos; rfl
  | succ k ih =>
    intro s pos
    cases s with
    | nil => rfl
    | cons c rest =>
      show findMatchesAux rest (pos + 1) k = _
      rw [ih rest (pos + 1)]
      show findMatchesAux (rest.drop k) (pos + 1 + k) 0 = findMatchesAux (rest.drop k) (pos + (k + 1)) 0
      congr 1
      omega

theorem findMatchesAux_cons_zero (c : Char) (rest : List Char) (pos : Nat) :
    findMatchesAux (c :: rest) pos 0 =
      match matchWeekAt (c :: rest) with
      | some (n, len) => (pos, pos + len, n) :: findMatchesAux rest (pos + 1) (len - 1)
      | none => findMatchesAux rest (pos + 1) 0 := rfl

theorem findMatches_cons_none (c : Char) (rest : List Char) (pos : Nat)
    (h : matchWeekAt (c :: rest) = none) :
    findMatches (c :: rest) pos = findMatches rest (pos + 1) := by
  unfold findMatches
  rw [findMatchesAux_cons_zero, h]

theorem findMatches_cons_some (c : Char) (rest : List Char) (pos n len : Nat)
    (h : matchWeekAt (c :: rest) = some (n, len)) :
    findMatches (c :: rest) pos =
      (pos, pos + len, n) :: findMatches ((c :: rest).drop len) (pos + len) := by
  have h5 := matchWeekAt_some_len _ _ _ h
  unfold findMatches
  rw [findMatchesAux_cons_zero, h]
  dsimp only
  congr 1
  rw [findMatchesAux_skip (len - 1) rest (pos + 1)]
  obtain ⟨len2, rfl⟩ : ∃ m, len = m + 1 := ⟨len - 1, by omega⟩
  simp only [Nat.add_sub_cancel, List.drop_succ_cons]
  congr 1
  omega

theorem findMatches_skip (k : Nat) :
    ∀ (s : List Char) (pos : Nat), (∀ j, j < k → matchWeekAt (s.drop j) = none) →
      findMatches s pos = findMatches (s.drop k) (pos + k) := by
  induction k with
  | zero => intro s pos _; rfl
  | succ k ih =>
    intro s pos h
    cases s with
    | nil => rfl
    | cons c rest =>
      have h0 : matchWeekAt (c :: rest) = none := by simpa using h 0 (Nat.succ_pos k)
      rw [findMatches_cons_none c rest pos h0,
        ih rest (pos + 1) (fun j hj => by simpa using h (j + 1) (by omega))]
      show findMatches (rest.drop k) (pos + 1 + k) = findMatches ((c :: rest).drop (k + 1)) _
      rw [List.drop_succ_cons]
      congr 1
      omega

theorem findMatches_head_step (d : Char) (n : Nat) (hd : weekDigit d = some n)
    (rest : List Char) (pos : Nat) :
    findMatches (wkHead d ++ rest) pos = (pos, pos + 7, n) :: findMatches rest (pos + 7) := by
  have h := findMatches_cons_some 'W' ('E' :: 'E' :: 'K' :: ' ' :: d :: ':' :: rest) pos n 7
    (matchWeekAt_head d n hd rest)
  simpa [wkHead] using h

theorem findMatches_body_step (b rest2 : List Char) (pos : Nat)
    (hm : ∀ j, j < b.length → matchWeekAt ((b ++ rest2).drop j) = none) :
    findMatches (b ++ rest2) pos = findMatches rest2 (pos + b.length) := by
  rw [findMatches_skip b.length (b ++ rest2) pos hm, List.drop_left]

theorem findMatches_tail_none (b : List Char) (pos : Nat)
    (hm : ∀ j, j < b.length → matchWeekAt (b.drop j) = none) :
    findMatches b pos = [] := by
  rw [findMatches_skip b.length b pos hm, List.drop_length]
  rfl

theorem replaceCRLF_of_no_cr (l : List Char) (h : '\r' ∉ l) : replaceCRLF l = l := by
  induction l with
  | nil => rfl
  | cons c rest ih =>
    cases rest with
    | nil => rfl
    | cons c2 rest2 =>
      have hc : ¬((c = '\r' && c2 = '\n') = true) := by
        simp only [Bool.and_eq_true, decide_eq_true_eq]
        rintro ⟨rfl, -⟩
        exact h (List.mem_cons_self _ _)
      have e : replaceCRLF (c :: c2 :: rest2) =
          if c = '\r' && c2 = '\n' then '\n' :: replaceCRLF rest2
          else c :: replaceCRLF (c2 :: rest2) := rfl
      rw [e, if_neg hc, ih (fun hm => h (List.mem_cons_of_mem c hm))]

theorem strip_cons_space (c : Char) (l : List Char) (h : isSpace c = true) :
    strip (c :: l) = strip l := by
  unfold strip
  rw [List.dropWhile_cons, if_pos h]

theorem lastN_eq_reverse_take (n : Nat) (l : List α) :
    lastN n l = (l.reverse.take n).reverse := by
  unfold lastN
  rw [List.take_reverse, List.reverse_reverse]

theorem take_append_take (n : Nat) (a b : List α) :
    (a ++ b.take n).take n = (a ++ b).take n := by
  rw [List.take_append_eq_append_take, List.take_append_eq_append_take, List.take_take]
  congr 2
  omega

theorem lastN_append_lastN (n : Nat) (xs zs : List α) :
    lastN n (lastN n xs ++ zs) = lastN n (xs ++ zs) := by
  rw [lastN_eq_reverse_take n xs, lastN_eq_reverse_take, lastN_eq_reverse_take,
    List.reverse_append, List.reverse_reverse, List.reverse_append]
  rw [take_append_take]

theorem coach_chat_update_eq_lastN (chat : List Turn) (q a : String) :
    coach_chat_update chat q a = lastN 20 (chat ++ chatTurns q a) := by
  simp only [coach_chat_update, lastN, chatTurns]
  split
  · rfl
  · next h =>
    have h0 : (chat ++ [⟨"user", q⟩, ⟨"assistant", a⟩] : List Turn).length - 20 = 0 := by
      omega
    rw [h0, List.drop_zero]

theorem foldAsks_lastN (qas : List (String × String)) :
    ∀ pre : List Turn,
      qas.foldl (fun chat qa => coach_chat_update chat qa.1 qa.2) (lastN 20 pre) =
        lastN 20 (pre ++ allTurns qas) := by
  induction qas with
  | nil => intro pre; simp [allTurns]
  | cons qa rest ih =>
    intro pre
    obtain ⟨q, a⟩ := qa
    rw [List.foldl_cons]
    show rest.foldl (fun chat qa => coach_chat_update chat qa.1 qa.2)
        (coach_chat_update (lastN 20 pre) q a) = _
    rw [coach_chat_update_eq_lastN, lastN_append_lastN, ih (pre ++ chatTurns q a),
      List.append_assoc]
    rfl

theorem drop7_wkHead (d : Char) (rest : List Char) : (wkHead d ++ rest).drop 7 = rest := rfl

theorem assignSections_cons (text : List Char) (a e n : Nat)
    (rest : List (Nat × Nat × Nat)) (w : Weeks) :
    assignSections text ((a, e, n) :: rest) w =
      assignSections text rest
        (if strip ((text.drop e).take (nextStart text rest - e)) = [] then w
          else setWeek w n (strip ((text.drop e).take (nextStart text rest - e)))) := rfl

/-! ## C1: segmentation of a well-formed four-week plan -/

/-- C1 counterexample: the well-formed plan
`"WEEK 1:\n- a\nWEEK 2:\n- b\nWEEK 3:\n- c\nWEEK 4:\n- d"` has exactly the
four ascending heading matches with non-empty body text after each, but
the concatenation of the four returned values is `"- a- b- c- d"`, which
does not reconstruct the original body text minus the headings
(`"\n- a\n\n- b\n\n- c\n\n- d"`) — each section loses its surrounding
whitespace to `.strip()`. -/
theorem c1_counterexample :
    findMatches
        (replaceCRLF (String.toList "WEEK 1:\n- a\nWEEK 2:\n- b\nWEEK 3:\n- c\nWEEK 4:\n- d")) 0 =
      [(0, 7, 1), (12, 19, 2), (24, 31, 3), (36, 43, 4)] ∧
    (split_plan_into_weeks
        (String.toList "WEEK 1:\n- a\nWEEK 2:\n- b\nWEEK 3:\n- c\nWEEK 4:\n- d")).w1 ≠ [] ∧
    (split_plan_into_weeks
        (String.toList "WEEK 1:\n- a\nWEEK 2:\n- b\nWEEK 3:\n- c\nWEEK 4:\n- d")).w2 ≠ [] ∧
    (split_plan_into_weeks
        (String.toList "WEEK 1:\n- a\nWEEK 2:\n- b\nWEEK 3:\n- c\nWEEK 4:\n- d")).w3 ≠ [] ∧
    (split_plan_into_weeks
        (String.toList "WEEK 1:\n- a\nWEEK 2:\n- b\nWEEK 3:\n- c\nWEEK 4:\n- d")).w4 ≠ [] ∧
    ((split_plan_into_weeks
          (String.toList "WEEK 1:\n- a\nWEEK 2:\n- b\nWEEK 3:\n- c\nWEEK 4:\n- d")).w1 ++
        (split_plan_into_weeks
          (String.toList "WEEK 1:\n- a\nWEEK 2:\n- b\nWEEK 3:\n- c\nWEEK 4:\n- d")).w2 ++
        (split_plan_into_weeks
          (String.toList "WEEK 1:\n- a\nWEEK 2:\n- b\nWEEK 3:\n- c\nWEEK 4:\n- d")).w3 ++
        (split_plan_into_weeks
          (String.toList "WEEK 1:\n- a\nWEEK 2:\n- b\nWEEK 3:\n- c\nWEEK 4:\n- d")).w4) ≠
      String.toList "\n- a\n\n- b\n\n- c\n\n- d" := by decide

/-- C1 (amended): for every plan text consisting of exactly the four
headings `WEEK 1:` through `WEEK 4:` in ascending order, each followed by
body text containing no heading-pattern match, no carriage returns and
non-whitespace content, the segmenter assigns to each week its body text
stripped of leading/trailing whitespace; all four values are non-empty
and their concatenation in week order reconstructs the body text minus
headings up to the whitespace stripped at each section boundary. -/
theorem c1_amended_reconstruction (b1 b2 b3 b4 : List Char)
    (hcr1 : '\r' ∉ b1) (hcr2 : '\r' ∉ b2) (hcr3 : '\r' ∉ b3) (hcr4 : '\r' ∉ b4)
    (hm1 : ∀ j, j < b1.length →
      matchWeekAt
        ((b1 ++ (wkHead '2' ++ (b2 ++ (wkHead '3' ++ (b3 ++ (wkHead '4' ++ b4)))))).drop j) =
        none)
    (hm2 : ∀ j, j < b2.length →
      matchWeekAt ((b2 ++ (wkHead '3' ++ (b3 ++ (wkHead '4' ++ b4)))).drop j) = none)
    (hm3 : ∀ j, j < b3.length →
      matchWeekAt ((b3 ++ (wkHead '4' ++ b4)).drop j) = none)
    (hm4 : ∀ j, j < b4.length → matchWeekAt (b4.drop j) = none)
    (hne1 : strip b1 ≠ []) (hne2 : strip b2 ≠ []) (hne3 : strip b3 ≠ [])
    (hne4 : strip b4 ≠ []) :
    split_plan_into_weeks
        (wkHead '1' ++
          (b1 ++ (wkHead '2' ++ (b2 ++ (wkHead '3' ++ (b3 ++ (wkHead '4' ++ b4))))))) =
      ⟨strip b1, strip b2, strip b3, strip b4⟩ ∧
    (split_plan_into_weeks
          (wkHead '1' ++
            (b1 ++ (wkHead '2' ++ (b2 ++ (wkHead '3' ++ (b3 ++ (wkHead '4' ++ b4)))))))).w1 ++
        (split_plan_into_weeks
          (wkHead '1' ++
            (b1 ++ (wkHead '2' ++ (b2 ++ (wkHead '3' ++ (b3 ++ (wkHead '4' ++ b4)))))))).w2 ++
        (split_plan_into_weeks
          (wkHead '1' ++
            (b1 ++ (wkHead '2' ++ (b2 ++ (wkHead '3' ++ (b3 ++ (wkHead '4' ++ b4)))))))).w3 ++
        (split_plan_into_weeks
          (wkHead '1' ++
            (b1 ++ (wkHead '2' ++ (b2 ++ (wkHead '3' ++ (b3 ++ (wkHead '4' ++ b4)))))))).w4 =
      strip b1 ++ strip b2 ++ strip b3 ++ strip b4 := by
  set R4 := wkHead '4' ++ b4 with hR4
  set R3 := wkHead '3' ++ (b3 ++ R4) with hR3
  set R2 := wkHead '2' ++ (b2 ++ R3) with hR2
  set T := wkHead '1' ++ (b1 ++ R2) with hTdef
  have hcrT : ('\r' : Char) ∉ T := by
    rw [hTdef, hR2, hR3, hR4]
    intro hmem
    rcases List.mem_append.1 hmem with h | h
    · exact absurd h (by decide)
    rcases List.mem_append.1 h with h | h
    · exact hcr1 h
    rcases List.mem_append.1 h with h | h
    · exact absurd h (by decide)
    rcases List.mem_append.1 h with h | h
    · exact hcr2 h
    rcases List.mem_append.1 h with h | h
    · exact absurd h (by decide)
    rcases List.mem_append.1 h with h | h
    · exact hcr3 h
    rcases List.mem_append.1 h with h | h
    · exact absurd h (by decide)
    · exact hcr4 h
  have hT : replaceCRLF T = T := replaceCRLF_of_no_cr T hcrT
  have hms : findMatches T 0 =
      [(0, 7, 1),
        (7 + b1.length, 14 + b1.length, 2),
        (14 + b1.length + b2.length, 21 + b1.length + b2.length, 3),
        (21 + b1.length + b2.length + b3.length,
          28 + b1.length + b2.length + b3.length, 4)] := by
    rw [hTdef, findMatches_head_step '1' 1 rfl _ 0, findMatches_body_step b1 _ _ hm1,
      hR2, findMatches_head_step '2' 2 rfl, findMatches_body_step b2 _ _ hm2,
      hR3, findMatches_head_step '3' 3 rfl, findMatches_body_step b3 _ _ hm3,
      hR4, findMatches_head_step '4' 4 rfl, findMatches_tail_none b4 _ hm4]
    simp only [List.cons.injEq, Prod.mk.injEq, and_true, true_and]
    omega
  have hd1 : T.drop 7 = b1 ++ R2 := by
    rw [hTdef, drop7_wkHead]
  have hd2 : T.drop (7 + b1.length) = R2 := by
    rw [← List.drop_drop, hd1, List.drop_left]
  have hd3 : T.drop (14 + b1.length) = b2 ++ R3 := by
    rw [show (14 : Nat) + b1.length = 7 + b1.length + 7 from by omega, ← List.drop_drop,
      hd2, hR2, drop7_wkHead]
  have hd4 : T.drop (14 + b1.length + b2.length) = R3 := by
    rw [← List.drop_drop, hd3, List.drop_left]
  have hd5 : T.drop (21 + b1.length + b2.length) = b3 ++ R4 := by
    rw [show (21 : Nat) + b1.length + b2.length = 14 + b1.length + b2.length + 7 from by omega,
      ← List.drop_drop, hd4, hR3, drop7_wkHead]
  have hd6 : T.drop (21 + b1.length + b2.length + b3.length) = R4 := by
    rw [← List.drop_drop, hd5, List.drop_left]
  have hd7 : T.drop (28 + b1.length + b2.length + b3.length) = b4 := by
    rw [show (28 : Nat) + b1.length + b2.length + b3.length =
        21 + b1.length + b2.length + b3.length + 7 from by omega,
      ← List.drop_drop, hd6, hR4, drop7_wkHead]
  have hlenT : T.length = 28 + b1.length + b2.length + b3.length + b4.length := by
    rw [hTdef, hR2, hR3, hR4]
    simp [wkHead]
    omega
  have hassign : assignSections T
      [(0, 7, 1),
        (7 + b1.length, 14 + b1.length, 2),
        (14 + b1.length + b2.length, 21 + b1.length + b2.length, 3),
        (21 + b1.length + b2.length + b3.length,
          28 + b1.length + b2.length + b3.length, 4)] emptyWeeks =
      ⟨strip b1, strip b2, strip b3, strip b4⟩ := by
    simp only [assignSections, nextStart]
    rw [show 7 + b1.length - 7 = b1.length from by omega,
      show 14 + b1.length + b2.length - (14 + b1.length) = b2.length from by omega,
      show 21 + b1.length + b2.length + b3.length - (21 + b1.length + b2.length) = b3.length
        from by omega,
      hlenT,
      show 28 + b1.length + b2.length + b3.length + b4.length -
        (28 + b1.length + b2.length + b3.length) = b4.length from by omega,
      hd1, hd3, hd5, hd7, List.take_left, List.take_left, List.take_left, List.take_length,
      if_neg hne4, if_neg hne3, if_neg hne2, if_neg hne1]
    rfl
  have H : split_plan_into_weeks T = ⟨strip b1, strip b2, strip b3, strip b4⟩ := by
    rw [split_plan_eq_cases, hT, hms, if_neg (by simp)]
    simp only [hassign]
    rw [if_neg ?hcond]
    case hcond =>
      rintro ⟨h1, h2, h3, h4⟩
      exact hne1 h1
  exact ⟨H, by rw [H]⟩

/-- C1 witness: the amended theorem applied to a concrete well-formed
four-week plan with bodies `"\n- a\n"` .. `"\n- d"`. -/
theorem c1_witness :
    split_plan_into_weeks
        (wkHead '1' ++
          (String.toList "\n- a\n" ++
            (wkHead '2' ++
              (String.toList "\n- b\n" ++
                (wkHead '3' ++
                  (String.toList "\n- c\n" ++ (wkHead '4' ++ String.toList "\n- d"))))))) =
      ⟨strip (String.toList "\n- a\n"), strip (String.toList "\n- b\n"),
        strip (String.toList "\n- c\n"), strip (String.toList "\n- d")⟩ :=
  (c1_amended_reconstruction (String.toList "\n- a\n") (String.toList "\n- b\n")
    (String.toList "\n- c\n") (String.toList "\n- d")
    (by decide) (by decide) (by decide) (by decide)
    (by decide) (by decide) (by decide) (by decide)
    (by decide) (by decide) (by decide) (by decide)).1

/-! ## C2: segmentation of text with no headings -/

/-- C2 counterexample: the input `"  hi  "` contains no heading match, yet
`split_plan_into_weeks` does not map week 1 to the full input text — the
stored value is the stripped text `"hi"`. -/
theorem c2_counterexample :
    findMatches (replaceCRLF (String.toList "  hi  ")) 0 = [] ∧
    (split_plan_into_weeks (String.toList "  hi  ")).w1 ≠ String.toList "  hi  " := by
  decide

/-- C2 (amended): for every input in which the heading pattern has zero
matches, the segmenter maps week 1 to the input text with line endings
normalized and leading/trailing whitespace stripped, and weeks 2-4 to the
empty string. -/
theorem c2_amended_no_headings (t : List Char)
    (h : findMatches (replaceCRLF t) 0 = []) :
    split_plan_into_weeks t = { emptyWeeks with w1 := strip (replaceCRLF t) } := by
  rw [split_plan_eq_cases, if_pos h]

/-- C2 witness: the amended theorem applied to the concrete input
`"hello"`. -/
theorem c2_witness :
    split_plan_into_weeks (String.toList "hello") = ⟨String.toList "hello", [], [], []⟩ := by
  rw [c2_amended_no_headings (String.toList "hello") (by decide)]
  decide

/-! ## C3: week-parameter handling of the coach view -/

/-- C3 counterexample: the week parameter 5 is greater than 4, but the
coach view maps it to 1, not to 4 — there is no clamping to the upper
bound. -/
theorem c3_counterexample : coach_week_param 5 = 1 ∧ (1 : Int) ≠ 4 := by decide

/-- C3 (amended): the week-parameter handling keeps integers in [1,4]
unchanged and maps every integer outside [1,4] — below 1 or above 4 —
to 1. -/
theorem c3_amended_week_param (w : Int) :
    (1 ≤ w → w ≤ 4 → coach_week_param w = w) ∧
    ((w < 1 ∨ 4 < w) → coach_week_param w = 1) := by
  constructor
  · intro h1 h2
    have hw : w = 1 ∨ w = 2 ∨ w = 3 ∨ w = 4 := by omega
    unfold coach_week_param
    rw [if_pos hw]
  · intro h
    have hw : ¬(w = 1 ∨ w = 2 ∨ w = 3 ∨ w = 4) := by omega
    unfold coach_week_param
    rw [if_neg hw]

/-- C3 witness: the amended theorem applied at the in-range input 2 and the
out-of-range input 7. -/
theorem c3_witness : coach_week_param 2 = 2 ∧ coach_week_param 7 = 1 :=
  ⟨(c3_amended_week_param 2).1 (by decide) (by decide),
   (c3_amended_week_param 7).2 (Or.inr (by decide))⟩

/-! ## C4: generate without a recorded BMI sample -/

theorem get_latest_bmi_eq_none (db : Db) (user_id : Nat)
    (h : db.bmi_history.filter (fun r => r.user_id = user_id) = []) :
    get_latest_bmi db user_id = none := by
  unfold get_latest_bmi
  rw [h]
  rfl

/-- C4: when the user has no recorded BMI sample, the generate action of the
coach controller reports the prerequisite-missing message and leaves the
whole store — in particular the `coach_plans` table — unchanged. -/
theorem c4_generate_requires_bmi (db : Db) (sess : CoachSession) (user_id : Nat)
    (goal : String) (ai_plan : List Char) (now : Nat)
    (h : db.bmi_history.filter (fun r => r.user_id = user_id) = []) :
    (coach_generate db sess user_id goal ai_plan now).1 = db ∧
    (coach_generate db sess user_id goal ai_plan now).2.2 =
      some "Please calculate your BMI at least once before using AI Coach." := by
  unfold coach_generate
  rw [get_latest_bmi_eq_none db user_id h]
  exact ⟨rfl, rfl⟩

/-- C4 witness: a store whose only BMI row belongs to user 7; the generate
action for user 3 fails and inserts nothing. -/
theorem c4_witness :
    (coach_generate
        ⟨[⟨7, 70, 17/10, 2422/100, "Normal", 5⟩], []⟩
        ⟨none, none, "lose weight", []⟩ 3 "lose weight" (String.toList "plan") 6).1 =
      ⟨[⟨7, 70, 17/10, 2422/100, "Normal", 5⟩], []⟩ ∧
    (coach_generate
        ⟨[⟨7, 70, 17/10, 2422/100, "Normal", 5⟩], []⟩
        ⟨none, none, "lose weight", []⟩ 3 "lose weight" (String.toList "plan") 6).2.2 =
      some "Please calculate your BMI at least once before using AI Coach." :=
  c4_generate_requires_bmi _ _ 3 "lose weight" (String.toList "plan") 6 (by decide)

/-! ## C6: re-segmenting a re-wrapped section -/

/-- C6 counterexample: segmenting `"week 1"` leaves `"week 1"` as week 1's
value (via the all-sections-empty fallback), but segmenting that value
re-wrapped under its own `WEEK 1:` heading yields
`"WEEK 1:\nweek 1"` for week 1 — not the same section text — because the
section itself matches the heading pattern. -/
theorem c6_counterexample :
    (split_plan_into_weeks (String.toList "week 1")).w1 = String.toList "week 1" ∧
    (split_plan_into_weeks (rewrapWeek '1' (String.toList "week 1"))).w1 ≠
      String.toList "week 1" := by decide

/-- C6 (amended): for every week digit and every non-empty, already-stripped
section text in which the heading pattern has no match — which every
non-empty section extracted between headings satisfies — segmenting the
section re-wrapped under its own heading yields exactly that section as
the week's value and leaves the other weeks empty. -/
theorem c6_amended_idempotent (d : Char) (n : Nat) (hd : weekDigit d = some n)
    (s : List Char) (hne : s ≠ []) (hstrip : strip s = s) (hcr : '\r' ∉ s)
    (hm : ∀ j, j < s.length → matchWeekAt (s.drop j) = none) :
    split_plan_into_weeks (rewrapWeek d s) = setWeek emptyWeeks n s := by
  have hcrT : ('\r' : Char) ∉ rewrapWeek d s := by
    intro hmem
    rcases List.mem_append.1 hmem with h1 | h1
    · rcases weekDigit_cases d n hd with ⟨rfl, -⟩ | ⟨rfl, -⟩ | ⟨rfl, -⟩ | ⟨rfl, -⟩ <;>
        exact absurd h1 (by decide)
    · rcases List.mem_cons.1 h1 with h2 | h2
      · exact absurd h2 (by decide)
      · exact hcr h2
  have hT : replaceCRLF (rewrapWeek d s) = rewrapWeek d s := replaceCRLF_of_no_cr _ hcrT
  have hms : findMatches (rewrapWeek d s) 0 = [(0, 7, n)] := by
    rw [show rewrapWeek d s = wkHead d ++ ('\n' :: s) from rfl,
      findMatches_head_step d n hd ('\n' :: s) 0,
      findMatches_cons_none '\n' s 7 (matchWeekAt_not_w '\n' s (by decide)),
      findMatches_tail_none s (7 + 1) hm]
  have hlen : (rewrapWeek d s).length = 8 + s.length := by
    simp [rewrapWeek, wkHead]
    omega
  have hsec :
      strip (((rewrapWeek d s).drop 7).take (nextStart (rewrapWeek d s) [] - 7)) = s := by
    rw [show (rewrapWeek d s).drop 7 = '\n' :: s from rfl]
    show strip (('\n' :: s).take ((rewrapWeek d s).length - 7)) = s
    rw [hlen, show 8 + s.length - 7 = s.length + 1 from by omega,
      show ('\n' :: s).take (s.length + 1) = '\n' :: s from List.take_length ('\n' :: s),
      strip_cons_space '\n' s (by decide), hstrip]
  have hassign :
      assignSections (rewrapWeek d s) [(0, 7, n)] emptyWeeks = setWeek emptyWeeks n s := by
    have e1 : assignSections (rewrapWeek d s) [(0, 7, n)] emptyWeeks =
        assignSections (rewrapWeek d s) []
          (if strip (((rewrapWeek d s).drop 7).take (nextStart (rewrapWeek d s) [] - 7)) = []
            then emptyWeeks
            else setWeek emptyWeeks n
              (strip (((rewrapWeek d s).drop 7).take (nextStart (rewrapWeek d s) [] - 7)))) :=
      rfl
    rw [e1, hsec, if_neg hne]
    rfl
  rw [split_plan_eq_cases, hT, hms, if_neg (by simp)]
  simp only [hassign]
  rw [if_neg ?hcond]
  case hcond =>
    rcases weekDigit_cases d n hd with ⟨-, rfl⟩ | ⟨-, rfl⟩ | ⟨-, rfl⟩ | ⟨-, rfl⟩ <;>
      rintro ⟨h1, h2, h3, h4⟩ <;>
      [exact hne h1; exact hne h2; exact hne h3; exact hne h4]

/-- C6 witness: the amended theorem applied to the section text `"- run"`
re-wrapped as week 2. -/
theorem c6_witness :
    split_plan_into_weeks (rewrapWeek '2' (String.toList "- run")) =
      setWeek emptyWeeks 2 (String.toList "- run") :=
  c6_amended_idempotent '2' 2 (by decide) (String.toList "- run") (by decide) (by decide)
    (by decide) (by decide)

/-! ## C7: the LLM Gateway's failure taxonomy -/

/-- C7: for every credential configuration and every outcome of the
outbound call, the Gateway returns the descriptive string of the source's
corresponding branch — missing credential, timeout, network error, other
raised exception, non-2xx status, malformed payload.  The embedding
`call_openrouter` is a total function: every branch of the source's
try/except returns a string and none re-raises. -/
theorem c7_gateway_errors (key : Option String) (out : CallOutcome) :
    (key = none →
      call_openrouter key out =
        "AI Coach is unavailable: OPENROUTER_API_KEY is not set in Render Environment Variables.") ∧
    (key ≠ none → out = .httpTimeout →
      call_openrouter key out = "AI Coach timed out. Please try again.") ∧
    (∀ d, key ≠ none → out = .netFail d →
      call_openrouter key out = "AI Coach network error: " ++ d) ∧
    (∀ st det, key ≠ none → out = .httpErr st det →
      call_openrouter key out =
        "AI Coach is unavailable (HTTP " ++ toString st ++ ").\n\nDetails:\n" ++ det) ∧
    (∀ dump, key ≠ none → out = .httpOk (.badShape dump) →
      call_openrouter key out = "AI Coach error: Unexpected response format.\n\nRaw:\n" ++ dump) ∧
    (∀ d, key ≠ none → out = .otherFail d →
      call_openrouter key out = "AI Coach error: " ++ d) := by
  obtain _ | k := key
  · exact ⟨fun _ => rfl,
      fun hk => absurd rfl hk,
      fun d hk => absurd rfl hk,
      fun st det hk => absurd rfl hk,
      fun dump hk => absurd rfl hk,
      fun d hk => absurd rfl hk⟩
  · refine ⟨?_, ?_, ?_, ?_, ?_, ?_⟩
    · intro h; exact absurd h (by simp)
    · rintro _ rfl; rfl
    · rintro d _ rfl; rfl
    · rintro st det _ rfl; rfl
    · rintro dump _ rfl; rfl
    · rintro d _ rfl; rfl

/-- C7 witness: each failure class of the theorem at a concrete input. -/
theorem c7_witness :
    call_openrouter none .httpTimeout =
      "AI Coach is unavailable: OPENROUTER_API_KEY is not set in Render Environment Variables." ∧
    call_openrouter (some "sk") .httpTimeout = "AI Coach timed out. Please try again." ∧
    call_openrouter (some "sk") (.netFail "boom") = "AI Coach network error: boom" ∧
    call_openrouter (some "sk") (.httpErr 401 "denied") =
      "AI Coach is unavailable (HTTP 401).\n\nDetails:\ndenied" ∧
    call_openrouter (some "sk") (.httpOk (.badShape "raw")) =
      "AI Coach error: Unexpected response format.\n\nRaw:\nraw" ∧
    call_openrouter (some "sk") (.otherFail "oops") = "AI Coach error: oops" := by
  refine ⟨(c7_gateway_errors none .httpTimeout).1 rfl,
    (c7_gateway_errors (some "sk") .httpTimeout).2.1 (by simp) rfl,
    ?_, ?_, ?_, ?_⟩
  · have h := (c7_gateway_errors (some "sk") (.netFail "boom")).2.2.1 "boom" (by simp) rfl
    simpa using h
  · have h := (c7_gateway_errors (some "sk") (.httpErr 401 "denied")).2.2.2.1 401 "denied"
      (by simp) rfl
    simpa using h
  · have h := (c7_gateway_errors (some "sk") (.httpOk (.badShape "raw"))).2.2.2.2.1 "raw"
      (by simp) rfl
    simpa using h
  · have h := (c7_gateway_errors (some "sk") (.otherFail "oops")).2.2.2.2.2 "oops" (by simp) rfl
    simpa using h

/-! ## C8: week selection never returns an empty string for a non-empty plan -/

/-- C8: for every session WeekMap (present or not), every non-empty stored
plan text and every week value, the week-selection step returns a
non-empty string: an empty looked-up section falls back to the full plan
text. -/
theorem c8_select_week_nonempty (weeks : Option Weeks) (plan_text : List Char) (week : Int)
    (h : plan_text ≠ []) : select_week weeks plan_text week ≠ [] := by
  unfold select_week
  split
  · exact h
  · next hcond => exact fun hc => hcond ⟨hc, h⟩

/-- C8 witness: a session with no parsed WeekMap, a non-empty plan and an
out-of-range week still yields a non-empty selection. -/
theorem c8_witness : select_week none (String.toList "plan") 9 ≠ [] :=
  c8_select_week_nonempty none (String.toList "plan") 9 (by decide)

/-! ## C10: at least one heading but all sections empty -/

/-- C10: if the heading pattern matches at least once but every extracted
section strips to empty, the segmenter assigns the whole normalized,
stripped text to week 1 and leaves weeks 2-4 empty; and any input that is
not pure whitespace never yields an all-empty WeekMap. -/
theorem c10_fallback_week1 (t : List Char) :
    ((findMatches (replaceCRLF t) 0 ≠ [] ∧
        ∀ p ∈ sections (replaceCRLF t) (findMatches (replaceCRLF t) 0), p.2 = []) →
      split_plan_into_weeks t = { emptyWeeks with w1 := strip (replaceCRLF t) }) ∧
    (strip (replaceCRLF t) ≠ [] →
      ¬((split_plan_into_weeks t).w1 = [] ∧ (split_plan_into_weeks t).w2 = [] ∧
        (split_plan_into_weeks t).w3 = [] ∧ (split_plan_into_weeks t).w4 = [])) := by
  constructor
  · rintro ⟨hm, hall⟩
    rw [split_plan_eq_cases, if_neg hm]
    rw [assignSections_of_all_empty _ _ _ hall]
    rfl
  · intro hs
    rw [split_plan_eq_cases]
    by_cases hm : findMatches (replaceCRLF t) 0 = []
    · rw [if_pos hm]
      rintro ⟨h1, -⟩
      exact hs h1
    · rw [if_neg hm]
      set w := assignSections (replaceCRLF t) (findMatches (replaceCRLF t) 0) emptyWeeks with hw
      by_cases he : w.w1 = [] ∧ w.w2 = [] ∧ w.w3 = [] ∧ w.w4 = []
      · rw [if_pos he]
        rintro ⟨h1, -⟩
        exact hs h1
      · rw [if_neg he]
        exact he

/-! ## C5: the conversation transcript stays bounded -/

/-- C5: after any number of successful ask actions starting from a cleared
chat, the stored transcript has length at most 20 and equals the last
(at most) 20 turns of the full chronological sequence — the most recent
turns in order, oldest discarded first. -/
theorem c5_chat_bounded (qas : List (String × String)) :
    (runAsks qas).length ≤ 20 ∧ runAsks qas = lastN 20 (allTurns qas) := by
  have h : runAsks qas = lastN 20 (allTurns qas) := by
    unfold runAsks
    have h0 : ([] : List Turn) = lastN 20 ([] : List Turn) := rfl
    rw [h0, foldAsks_lastN qas [], List.nil_append]
  refine ⟨?_, h⟩
  rw [h]
  unfold lastN
  rw [List.length_drop]
  omega

/-! ## C9: empty sections never overwrite, last non-empty section wins -/

theorem getWeek_setWeek (w : Weeks) (m n : Nat) (v : List Char)
    (hn : n = 1 ∨ n = 2 ∨ n = 3 ∨ n = 4) :
    getWeek (setWeek w m v) n = if m = n then v else getWeek w n := by
  rcases hn with rfl | rfl | rfl | rfl <;>
    rcases m with _ | _ | _ | _ | _ | m <;>
    simp [setWeek, getWeek]

theorem getLastD_cons (a d : List Char) (l : List (List Char)) :
    (a :: l).getLast?.getD d = l.getLast?.getD a := by
  induction l generalizing a d with
  | nil => rfl
  | cons b l2 ih => rw [List.getLast?_cons_cons, ih b d, ih b a]

theorem assign_getWeek (text : List Char) (ms : List (Nat × Nat × Nat)) (w : Weeks) (n : Nat)
    (hn : n = 1 ∨ n = 2 ∨ n = 3 ∨ n = 4) :
    getWeek (assignSections text ms w) n =
      (((sections text ms).filter (fun p => p.1 == n && !p.2.isEmpty)).map
        Prod.snd).getLast?.getD (getWeek w n) := by
  induction ms generalizing w with
  | nil => rfl
  | cons m rest ih =>
    obtain ⟨a, e, k⟩ := m
    have hsec : sections text ((a, e, k) :: rest) =
        (k, strip ((text.drop e).take (nextStart text rest - e))) :: sections text rest := rfl
    have hassign : assignSections text ((a, e, k) :: rest) w =
        assignSections text rest
          (if strip ((text.drop e).take (nextStart text rest - e)) = [] then w
            else setWeek w k (strip ((text.drop e).take (nextStart text rest - e)))) := rfl
    rw [hassign, hsec, List.filter_cons]
    by_cases hempty : strip ((text.drop e).take (nextStart text rest - e)) = []
    · rw [if_pos hempty, if_neg (by simp [hempty]), ih w]
    · rw [if_neg hempty]
      by_cases hk : k = n
      · rw [if_pos (by simp [hk, hempty]), List.map_cons, getLastD_cons, ih]
        congr 1
        rw [getWeek_setWeek w k n _ hn, if_pos hk]
      · rw [if_neg (by simp [hk]), ih]
        congr 1
        rw [getWeek_setWeek w k n _ hn, if_neg hk]

/-- C9: for every input text and every week number n in 1..4, the value the
section-assignment loop leaves in week n is the last non-empty stripped
section among the heading matches for week n, and the initial empty value
when every such section is empty — so an empty section never overwrites a
non-empty one, and among non-empty ones the last in scan order wins. -/
theorem c9_last_nonempty_wins (text : List Char) (n : Nat)
    (hn : n = 1 ∨ n = 2 ∨ n = 3 ∨ n = 4) :
    getWeek (assignSections text (findMatches text 0) emptyWeeks) n =
      (((sections text (findMatches text 0)).filter
          (fun p => p.1 == n && !p.2.isEmpty)).map Prod.snd).getLast?.getD [] := by
  rw [assign_getWeek text _ emptyWeeks n hn]
  rcases hn with rfl | rfl | rfl | rfl <;> rfl

/-- C9 witness: in `"week1 aaa week1 week1 bbb"` the second week-1 heading
has an empty section (it does not erase `"aaa"`) and the third, non-empty
one wins, so week 1 ends as `"bbb"`. -/
theorem c9_witness :
    getWeek
        (assignSections (String.toList "week1 aaa week1 week1 bbb")
          (findMatches (String.toList "week1 aaa week1 week1 bbb") 0) emptyWeeks) 1 =
      (((sections (String.toList "week1 aaa week1 week1 bbb")
            (findMatches (String.toList "week1 aaa week1 week1 bbb") 0)).filter
          (fun p => p.1 == 1 && !p.2.isEmpty)).map Prod.snd).getLast?.getD [] :=
  c9_last_nonempty_wins (String.toList "week1 aaa week1 week1 bbb") 1 (Or.inl rfl)

/-- C10 witness: the input consisting of exactly `"WEEK 1:"` has one heading
match with an empty section; the whole text goes to week 1, and the
result is not all-empty. -/
theorem c10_witness :
    split_plan_into_weeks (String.toList "WEEK 1:") =
      { emptyWeeks with w1 := strip (replaceCRLF (String.toList "WEEK 1:")) } ∧
    ¬((split_plan_into_weeks (String.toList "WEEK 1:")).w1 = [] ∧
      (split_plan_into_weeks (String.toList "WEEK 1:")).w2 = [] ∧
      (split_plan_into_weeks (String.toList "WEEK 1:")).w3 = [] ∧
      (split_plan_into_weeks (String.toList "WEEK 1:")).w4 = []) :=
  ⟨(c10_fallback_week1 (String.toList "WEEK 1:")).1 ⟨by decide, by decide⟩,
   (c10_fallback_week1 (String.toList "WEEK 1:")).2 (by decide)⟩
